import Mathlib

/-!
Verification development for the statement-normalization and ratio-computation
pipeline of the edgartools playground repository.

The embedding models:
* cell values of a pandas DataFrame (strings, ints, rationals standing for
  Python floats, and None) together with the conversions the source applies
  to them (the builtin str and float);
* DataFrames as a list of column names, a row-key index and a list of rows;
* the FinancialRatioAnalyzer class of
  edgar/xbrl/analysis/financial_ratio_analyzer.py;
* the ensure_dataframe / _normalize helpers of Rav/tickerinput.py and the
  normalize_statement helper of 1Financialstatements.py;
* a small reference heap, used to state the frame property of the analyzer
  constructor (inputs are copied, mutation touches only the copies).

Python exceptions are modelled with Except String; silently swallowed
exceptions are modelled by the Option/skip branches that the source's
try/except blocks produce.  Python floats are modelled by rationals plus an
explicit positive-infinity marker (the only non-finite value the source
produces); float round-off and NaN cells are outside the modelled value
domain, and the subset of the float(...) string grammar implemented below
(sign, digits, one decimal point) is enough for every claim.
-/

/-- Cell or index value of a DataFrame, as the source manipulates them. -/
inductive Value : Type where
  | vstr : String → Value
  | vint : Int → Value
  | vrat : ℚ → Value
  | vnone : Value
deriving DecidableEq

/-- Digits-only string to a natural number, as used by the float model. -/
def decDigits? (s : String) : Option Nat :=
  if s.length != 0 && s.data.all (fun c => c.isDigit) then
    some (s.data.foldl (fun n c => 10 * n + (c.toNat - 48)) 0)
  else none

/-- The subset of Python float(string) needed here: optional sign, digits,
optional single decimal point. -/
def parseRat? (s : String) : Option ℚ :=
  let t := s.trim
  let sgn : ℚ := if t.startsWith "-" then -1 else 1
  let body := if t.startsWith "-" || t.startsWith "+" then t.drop 1 else t
  match body.splitOn "." with
  | [ip] => (decDigits? ip).map (fun n => sgn * n)
  | [ip, fp] =>
      if ip.length == 0 && fp.length == 0 then none
      else
        let ipn := if ip.length == 0 then some 0 else decDigits? ip
        let fpn := if fp.length == 0 then some 0 else decDigits? fp
        match ipn, fpn with
        | some a, some b => some (sgn * ((a : ℚ) + (b : ℚ) / ((10 : ℚ) ^ fp.length)))
        | _, _ => none
  | _ => none

/-- Python float(value): ints and floats convert, numeric strings parse,
None raises (modelled as failure). -/
def pyFloat? : Value → Option ℚ
  | .vint n => some (n : ℚ)
  | .vrat q => some q
  | .vstr s => parseRat? s
  | .vnone => none

/-- Python str(value), as used by Index.astype(str). The float case renders
whole floats with a trailing .0 the way Python does; other float shapes do
not occur in the claims. -/
def valueToStr : Value → String
  | .vstr s => s
  | .vint n => toString n
  | .vrat q => if q.den = 1 then toString q.num ++ ".0" else toString q.num ++ "/" ++ toString q.den
  | .vnone => "None"

/-- A pandas DataFrame: named columns, a row-key index and the cell rows
(each row listing cells in column order). -/
structure DataFrame : Type where
  cols : List String
  index : List Value
  rows : List (List Value)
deriving DecidableEq

/-- DataFrame.loc[key] for a string key: all rows whose index entry equals
the string. A non-string index entry never matches a string key (pandas
raises KeyError when no row matches; the callers below handle the empty
result accordingly). -/
def DataFrame.locStr (df : DataFrame) (key : String) : List (List Value) :=
  (df.index.zip df.rows).filterMap (fun kr => if kr.1 = Value.vstr key then some kr.2 else none)

/-- Cell lookup row[c] given the column list of the frame. -/
def getCell (cols : List String) (row : List Value) (c : String) : Option Value :=
  match cols.findIdx? (fun x => x == c) with
  | some j => row.get? j
  | none => none

/-- DataFrame.set_index(c): the named column becomes the index and is
dropped from the columns; everything else is unchanged. Callers only invoke
it when the column exists. -/
def DataFrame.set_index (df : DataFrame) (c : String) : DataFrame :=
  match df.cols.findIdx? (fun x => x == c) with
  | some j =>
      { cols := df.cols.eraseIdx j
        index := df.rows.map (fun r => r.getD j Value.vnone)
        rows := df.rows.map (fun r => r.eraseIdx j) }
  | none => df

/-- Code-point comparison of strings, byte-for-byte what Python's str
comparison (and hence sorted) does on these keys. -/
def charListLe : List Char → List Char → Bool
  | [], _ => true
  | _ :: _, [] => false
  | a :: as1, b :: bs1 =>
      if a.toNat < b.toNat then true
      else if b.toNat < a.toNat then false
      else charListLe as1 bs1

/-- Lexicographic string order as a proposition, for use with insertionSort. -/
def strLeR (a b : String) : Prop := charListLe a.data b.data = true

instance : DecidableRel strLeR := fun a b =>
  inferInstanceAs (Decidable (charListLe a.data b.data = true))

/-- Totality of the code-point order. -/
theorem charListLe_total (xs : List Char) :
    ∀ ys, charListLe xs ys = true ∨ charListLe ys xs = true := by
  induction xs with
  | nil => intro ys; left; rfl
  | cons x xs ih =>
      intro ys
      cases ys with
      | nil => right; rfl
      | cons y ys =>
          by_cases hxy : x.toNat < y.toNat
          · left; simp [charListLe, hxy]
          · by_cases hyx : y.toNat < x.toNat
            · right; simp [charListLe, hyx]
            · rcases ih ys with h | h
              · left; simp only [charListLe, if_neg hxy, if_neg hyx]; exact h
              · right; simp only [charListLe, if_neg hyx, if_neg hxy]; exact h

/-- Transitivity of the code-point order. -/
theorem charListLe_trans (xs : List Char) :
    ∀ ys zs, charListLe xs ys = true → charListLe ys zs = true →
      charListLe xs zs = true := by
  induction xs with
  | nil => intro ys zs _ _; rfl
  | cons x xs ih =>
      intro ys zs h1 h2
      cases ys with
      | nil => simp [charListLe] at h1
      | cons y ys =>
          cases zs with
          | nil => simp [charListLe] at h2
          | cons z zs =>
              simp only [charListLe] at h1 h2 ⊢
              by_cases hxy : x.toNat < y.toNat
              · by_cases hyz : y.toNat < z.toNat
                · rw [if_pos (Nat.lt_trans hxy hyz)]
                · rw [if_neg hyz] at h2
                  by_cases hzy : z.toNat < y.toNat
                  · rw [if_pos hzy] at h2; exact absurd h2 (by simp)
                  · rw [if_pos (by omega : x.toNat < z.toNat)]
              · rw [if_neg hxy] at h1
                by_cases hyx : y.toNat < x.toNat
                · rw [if_pos hyx] at h1; exact absurd h1 (by simp)
                · rw [if_neg hyx] at h1
                  by_cases hyz : y.toNat < z.toNat
                  · rw [if_pos (by omega : x.toNat < z.toNat)]
                  · rw [if_neg hyz] at h2
                    by_cases hzy : z.toNat < y.toNat
                    · rw [if_pos hzy] at h2; exact absurd h2 (by simp)
                    · rw [if_neg hzy] at h2
                      rw [if_neg (by omega : ¬ x.toNat < z.toNat),
                        if_neg (by omega : ¬ z.toNat < x.toNat)]
                      exact ih ys zs h1 h2

instance : IsTotal String strLeR :=
  ⟨fun a b => charListLe_total a.data b.data⟩

instance : IsTrans String strLeR :=
  ⟨fun a b c h1 h2 => charListLe_trans a.data b.data c.data h1 h2⟩

/-- One Python repr-style quoted list of strings, as interpolated by the
missing-columns message. -/
def pyStrList (l : List String) : String :=
  "[" ++ String.intercalate ", " (l.map (fun s => "\x27" ++ s ++ "\x27")) ++ "]"

/-- Message of the KeyError raised by DataFrame.loc on an absent key. -/
def keyError (p : String) : String := "KeyError: \x27" ++ p ++ "\x27"

/-- Ratio value: a finite rational or the positive infinity the source
produces for a zero denominator (float("inf")). -/
inductive PyFloat : Type where
  | fin : ℚ → PyFloat
  | inf : PyFloat
deriving DecidableEq

/-- Outcome of one financial-ratio computation for one period, mirroring the
RatioResult NamedTuple of the source. -/
structure RatioResult : Type where
  name : String
  period : String
  result : PyFloat
deriving DecidableEq

/-- Normalization step of tickerinput.fetch_and_prepare_statements._normalize:
promote a "period" column to the index when present, then cast the index to
strings (df.index = df.index.astype(str)). -/
def _normalize (df : DataFrame) : DataFrame :=
  let df1 := if "period" ∈ df.cols then df.set_index "period" else df
  { df1 with index := df1.index.map (fun v => Value.vstr (valueToStr v)) }

/-- Per-table normalization performed inside FinancialRatioAnalyzer.__init__:
set_index("period", inplace=True) when the column exists. Unlike _normalize
above, the index values are NOT cast to strings here. -/
def normalizeInit (df : DataFrame) : DataFrame :=
  if "period" ∈ df.cols then df.set_index "period" else df

/-- Period Set derivation of FinancialRatioAnalyzer.__init__ when the caller
passes no periods: sorted intersection of the two indexes cast to strings,
with Python's sorted modelled by insertion sort under the code-point order. -/
def derivePeriods (balance_sheet income_stmt : DataFrame) : List String :=
  let bs_periods := (balance_sheet.index.map valueToStr).dedup
  let is_periods := (income_stmt.index.map valueToStr).dedup
  List.insertionSort strLeR (bs_periods.filter (fun s => is_periods.contains s))

/-- State of a constructed FinancialRatioAnalyzer. -/
structure FinancialRatioAnalyzer : Type where
  balance_sheet : DataFrame
  income_stmt : DataFrame
  cash_flow : Option DataFrame
  periods : List String
deriving DecidableEq

/-- FinancialRatioAnalyzer.__init__: copy each input (value semantics make
the copy implicit here; the heap model below makes it explicit), promote the
"period" column of each table to its index, then take the caller-supplied
periods verbatim or the sorted intersection of the two indexes as strings. -/
def FinancialRatioAnalyzer.init (balance_sheet_df income_stmt_df : DataFrame)
    (cash_flow_df : Option DataFrame) (periods : Option (List String)) :
    FinancialRatioAnalyzer :=
  let balance_sheet := normalizeInit balance_sheet_df
  let income_stmt := normalizeInit income_stmt_df
  let cash_flow := cash_flow_df.map normalizeInit
  { balance_sheet := balance_sheet
    income_stmt := income_stmt
    cash_flow := cash_flow
    periods :=
      match periods with
      | some l => l
      | none => derivePeriods balance_sheet income_stmt }

/-- FinancialRatioAnalyzer._require_columns: collect the required columns
absent from the frame and raise ValueError naming all of them if any. -/
def _require_columns (df : DataFrame) (cols : List String) (df_name : String) :
    Except String Unit :=
  let missing := cols.filter (fun c => !(df.cols.contains c))
  if missing.isEmpty then .ok ()
  else .error (df_name ++ " missing columns: " ++ pyStrList missing)

/-- Conversion float(row[c]) for the single row returned by .loc: on a
unique match read the cell and convert; the KeyError/TypeError/ValueError of
a missing cell, a None cell, a non-numeric string, or a multi-row .loc
result (float of a longer Series raises TypeError) are all caught by the
try/except of the source, yielding no value. -/
def singleRowFloat (cols : List String) (rowsFound : List (List Value)) (c : String) : Option ℚ :=
  match rowsFound with
  | [r] =>
      match getCell cols r c with
      | some v => pyFloat? v
      | none => none
  | _ => none

/-- Body of one iteration of the calculate_current_ratio loop: skip the
period when it is absent from the index rendered as strings; otherwise look
the row up with .loc[str(period)] (an empty match is an uncaught KeyError);
convert the two cells, skipping the period when conversion fails; a zero
current_liabilities yields positive infinity. -/
def crStep (balance_sheet : DataFrame) (period : String) :
    Except String (Option RatioResult) :=
  if period ∈ balance_sheet.index.map valueToStr then
    match balance_sheet.locStr period with
    | [] => .error (keyError period)
    | rowsFound =>
        match singleRowFloat balance_sheet.cols rowsFound "current_assets",
            singleRowFloat balance_sheet.cols rowsFound "current_liabilities" with
        | some current_assets, some current_liabilities =>
            .ok (some
              { name := "Current Ratio"
                period := period
                result :=
                  if current_liabilities = 0 then PyFloat.inf
                  else PyFloat.fin (current_assets / current_liabilities) })
        | _, _ => .ok none
  else .ok none

/-- Body of one iteration of the calculate_return_on_assets loop. The source
checks membership in both indexes first, then runs .loc on the income
statement and then on the balance sheet (each an uncaught KeyError when it
matches nothing), then converts net_income and total_assets inside the
try/except; a zero total_assets yields positive infinity. -/
def roaStep (income_stmt balance_sheet : DataFrame) (period : String) :
    Except String (Option RatioResult) :=
  if period ∈ income_stmt.index.map valueToStr ∧
      period ∈ balance_sheet.index.map valueToStr then
    match income_stmt.locStr period with
    | [] => .error (keyError period)
    | niRows =>
        match balance_sheet.locStr period with
        | [] => .error (keyError period)
        | bsRows =>
            match singleRowFloat income_stmt.cols niRows "net_income",
                singleRowFloat balance_sheet.cols bsRows "total_assets" with
            | some net_income, some total_assets =>
                .ok (some
                  { name := "Return on Assets"
                    period := period
                    result :=
                      if total_assets = 0 then PyFloat.inf
                      else PyFloat.fin (net_income / total_assets) })
            | _, _ => .ok none
  else .ok none

/-- The for-loop shared by both ratio computations: run the step for each
period in order, appending the produced results, skipping the skipped
periods, and propagating an uncaught exception (which discards the partial
results, as raising out of the Python loop does). -/
def ratioLoop (step : String → Except String (Option RatioResult)) :
    List String → Except String (List RatioResult)
  | [] => .ok []
  | p :: ps =>
      match step p with
      | .error e => .error e
      | .ok r? =>
          match ratioLoop step ps with
          | .error e => .error e
          | .ok rest =>
              .ok (match r? with
                | some r => r :: rest
                | none => rest)

/-- FinancialRatioAnalyzer.calculate_current_ratio. -/
def calculate_current_ratio (a : FinancialRatioAnalyzer) :
    Except String (List RatioResult) :=
  match _require_columns a.balance_sheet ["current_assets", "current_liabilities"] "balance_sheet" with
  | .error e => .error e
  | .ok _ => ratioLoop (crStep a.balance_sheet) a.periods

/-- FinancialRatioAnalyzer.calculate_return_on_assets. -/
def calculate_return_on_assets (a : FinancialRatioAnalyzer) :
    Except String (List RatioResult) :=
  match _require_columns a.income_stmt ["net_income"] "income_stmt" with
  | .error e => .error e
  | .ok _ =>
      match _require_columns a.balance_sheet ["total_assets"] "balance_sheet" with
      | .error e => .error e
      | .ok _ => ratioLoop (roaStep a.income_stmt a.balance_sheet) a.periods

/-- An opaque statement value as seen by the coercion helpers: None, an
actual DataFrame, a list/tuple of records (on which pd.DataFrame succeeds),
a dict of plain scalars (on which pd.DataFrame raises), or a generic object
carrying its type name, an optional zero-argument call behaviour (for
callable values; the inner none means the call raises), a table of callable
conversion methods (none as a payload means the call raises), a table of
plain attributes, and an optional __dict__ mapping. -/
inductive PyVal : Type where
  | pynone : PyVal
  | pydf : DataFrame → PyVal
  | records : List (List (String × Value)) → PyVal
  | scalarMap : PyVal
  | pyobj : String → Option (Option PyVal) → List (String × Option PyVal) →
      List (String × PyVal) → Option (List (String × Value)) → PyVal

/-- Python type(obj) rendered the way the diagnostics interpolate it. -/
def pyType : PyVal → String
  | .pynone => "<class \x27NoneType\x27>"
  | .pydf _ => "<class \x27pandas.core.frame.DataFrame\x27>"
  | .records _ => "<class \x27list\x27>"
  | .scalarMap => "<class \x27dict\x27>"
  | .pyobj ty _ _ _ _ => ty

/-- Columns of pd.DataFrame(records): keys in order of first appearance. -/
def recordCols (recs : List (List (String × Value))) : List String :=
  (recs.flatMap (fun r => r.map Prod.fst)).dedup

/-- pd.DataFrame built from a list of record mappings: the union of the keys
as columns, a counting index, and per-record cells (absent keys become
missing cells, standing for NaN). -/
def pdFromRecords (recs : List (List (String × Value))) : DataFrame :=
  let cs := recordCols recs
  { cols := cs
    index := (List.range recs.length).map (fun i => Value.vint i)
    rows := recs.map (fun r => cs.map (fun c =>
      match r.find? (fun kv => kv.1 == c) with
      | some kv => kv.2
      | none => Value.vnone)) }

/-- pd.json_normalize of a flat attribute mapping: a single-row frame whose
columns are the keys. -/
def jsonNormalize (d : List (String × Value)) : DataFrame :=
  { cols := d.map Prod.fst
    index := [Value.vint 0]
    rows := [d.map Prod.snd] }

/-- getattr(obj, m, None) restricted to the callable conversion methods of
the object (callable(fn) fails on every other shape probed here). -/
def lookupMethod : PyVal → String → Option (Option PyVal)
  | .pyobj _ _ ms _ _, m => (ms.find? (fun p => p.1 == m)).map (fun p => p.2)
  | _, _ => none

/-- getattr for the plain (non-callable) attributes of the object. -/
def lookupAttr : PyVal → String → Option PyVal
  | .pyobj _ _ _ as1 _, a => (as1.find? (fun p => p.1 == a)).map (fun p => p.2)
  | _, _ => none

/-- The conversion method names probed by ensure_dataframe, in order. -/
def method_names : List String :=
  ["to_frame", "to_dataframe", "to_df", "to_pandas", "as_dataframe", "as_df", "as_pandas"]

/-- The tabular attribute names probed by ensure_dataframe, in order. -/
def attr_names : List String :=
  ["df", "data", "dataframe", "table", "rows", "items", "statements"]

/-- Outcome of invoking one probed conversion method inside the
try/except of ensure_dataframe: a raising call is swallowed; a DataFrame
result is returned; a list/dict/tuple result goes through pd.DataFrame,
whose own exception is swallowed by the same try; any other result simply
lets the loop continue. -/
def tryMethodResult : Option PyVal → Option DataFrame
  | none => none
  | some (.pydf d) => some d
  | some (.records rs) => some (pdFromRecords rs)
  | some .scalarMap => none
  | some _ => none

/-- The method-probing loop of ensure_dataframe. -/
def tryMethods (obj : PyVal) : List String → Option DataFrame
  | [] => none
  | m :: ms =>
      match lookupMethod obj m with
      | some r =>
          match tryMethodResult r with
          | some d => some d
          | none => tryMethods obj ms
      | none => tryMethods obj ms

/-- Message of the ValueError pd.DataFrame raises on a dict of scalars (the
attribute-probing loop of ensure_dataframe has no try/except, so there the
exception escapes). -/
def dfConstructErr : String :=
  "ValueError: If using all scalar values, you must pass an index"

/-- The attribute-probing loop of ensure_dataframe: for the first present
attribute holding a DataFrame return it; for one holding a list/dict/tuple
run pd.DataFrame on it with no surrounding try (a construction failure
escapes); any other attribute value lets the loop continue. -/
def tryAttrs (obj : PyVal) : List String → Option (Except String DataFrame)
  | [] => none
  | a :: as1 =>
      match lookupAttr obj a with
      | some (.pydf d) => some (.ok d)
      | some (.records rs) => some (.ok (pdFromRecords rs))
      | some .scalarMap => some (.error dfConstructErr)
      | some _ => tryAttrs obj as1
      | none => tryAttrs obj as1

/-- Diagnostic message of the final TypeError of ensure_dataframe. -/
def conversionErrorMsg (name ty : String) : String :=
  name ++ " is a " ++ ty ++ " and could not be converted automatically to DataFrame.\n" ++
    "Inspect with: print(type(" ++ name ++ ")); print(dir(" ++ name ++
    ")); print(repr(" ++ name ++ ")[:400])\n" ++
    "Common fix: call the object\x27s conversion method (e.g. " ++ name ++
    ".to_frame()) before passing it here."

/-- tickerinput.ensure_dataframe: return a DataFrame untouched; raise on
None; probe the conversion methods with per-call failure isolation; probe
the tabular attributes; construct directly from a list/dict/tuple inside a
try; flatten a non-empty __dict__; otherwise raise the diagnostic
TypeError. -/
def ensure_dataframe (obj : PyVal) (name : String) : Except String DataFrame :=
  match obj with
  | .pydf d => .ok d
  | .pynone => .error (name ++ " is None")
  | _ =>
      match tryMethods obj method_names with
      | some d => .ok d
      | none =>
          match tryAttrs obj attr_names with
          | some r => r
          | none =>
              match obj with
              | .records rs => .ok (pdFromRecords rs)
              | _ =>
                  match obj with
                  | .pyobj _ _ _ _ (some (k :: ks)) => .ok (jsonNormalize (k :: ks))
                  | _ => .error (conversionErrorMsg name (pyType obj))

/-- The method names probed by normalize_statement of 1Financialstatements. -/
def ns_method_names : List String := ["get_dataframe", "to_pandas", "to_dataframe"]

/-- Python hasattr for the object model: true when the name is a callable
method or a plain attribute. -/
def hasAttr (obj : PyVal) (a : String) : Bool :=
  (lookupMethod obj a).isSome || (lookupAttr obj a).isSome

/-- getattr(stmt, attr)() as normalize_statement runs it, with no
failure isolation: a raising method propagates its exception, a present but
non-callable attribute raises TypeError when called. -/
def nsCallMethod (obj : PyVal) (a : String) : Except String PyVal :=
  match lookupMethod obj a with
  | some none => .error ("exception raised by " ++ a)
  | some (some v) => .ok v
  | none => .error ("TypeError: " ++ a ++ " object is not callable")

/-- The probing loop of normalize_statement: the FIRST present name wins
unconditionally and its call result (or exception) is returned as is. -/
def nsProbe (stmt : PyVal) : List String → Option (Except String PyVal)
  | [] => none
  | a :: as1 =>
      if hasAttr stmt a then some (nsCallMethod stmt a) else nsProbe stmt as1

/-- normalize_statement of 1Financialstatements: call a callable statement
once, return the first present conversion method's result without checking
it, pass a DataFrame through, and raise on everything else. -/
def normalize_statement (stmt0 : PyVal) : Except String PyVal :=
  let called : Except String PyVal :=
    match stmt0 with
    | .pyobj _ (some none) _ _ _ => .error "exception raised by calling stmt"
    | .pyobj _ (some (some v)) _ _ _ => .ok v
    | _ => .ok stmt0
  match called with
  | .error e => .error e
  | .ok stmt =>
      match nsProbe stmt ns_method_names with
      | some r => r
      | none =>
          match stmt with
          | .pydf _ => .ok stmt
          | _ => .error ("Unexpected statement type: " ++ pyType stmt)

/-- A reference heap of DataFrame objects, for stating which objects the
analyzer constructor mutates. References are cell numbers. -/
structure Heap : Type where
  cells : List DataFrame

/-- Dereference. -/
def Heap.read (h : Heap) (r : Nat) : Option DataFrame := h.cells[r]?

/-- df.copy(): allocate a fresh cell holding the same contents. -/
def Heap.alloc (h : Heap) (d : DataFrame) : Heap × Nat :=
  (⟨h.cells ++ [d]⟩, h.cells.length)

/-- In-place update of one cell. -/
def Heap.write (h : Heap) (r : Nat) (d : DataFrame) : Heap :=
  ⟨h.cells.set r d⟩

/-- The in-place body of the normalization loop of __init__:
df.set_index("period", inplace=True) on the referenced object when the
column exists. -/
def Heap.normRef (h : Heap) (r : Nat) : Heap :=
  match h.read r with
  | some d => if "period" ∈ d.cols then h.write r (d.set_index "period") else h
  | none => h

/-- The analyzer state as held on the heap: references to the three copied
tables plus the computed Period Set. -/
structure AnalyzerRefs : Type where
  balance_sheet : Nat
  income_stmt : Nat
  cash_flow : Option Nat
  periods : List String

/-- Tail of the heap-level __init__ once the three copies are allocated:
run the in-place period normalization on the copies only, then derive the
Period Set from the stored (normalized) copies unless the caller supplied
one. -/
def initHeapFinish (h3 : Heap) (bsR isR : Nat) (cfR : Option Nat)
    (periods : Option (List String)) : Option (Heap × AnalyzerRefs) :=
  let h4 := h3.normRef bsR
  let h5 := h4.normRef isR
  let h6 := match cfR with
    | some r => h5.normRef r
    | none => h5
  match h6.read bsR, h6.read isR with
  | some bsN, some isN =>
      some (h6, ⟨bsR, isR, cfR,
        match periods with
        | some l => l
        | none => derivePeriods bsN isN⟩)
  | _, _ => none

/-- FinancialRatioAnalyzer.__init__ against the heap, step for step: copy
each input into a fresh cell (df.copy()), then normalize in place and
compute the Period Set via initHeapFinish. -/
def initHeap (h0 : Heap) (bsRef isRef : Nat) (cfRef : Option Nat)
    (periods : Option (List String)) : Option (Heap × AnalyzerRefs) :=
  match h0.read bsRef with
  | none => none
  | some bs0 =>
      let h1 := (h0.alloc bs0).1
      let bsR := (h0.alloc bs0).2
      match h1.read isRef with
      | none => none
      | some is0 =>
          let h2 := (h1.alloc is0).1
          let isR := (h1.alloc is0).2
          match cfRef with
          | none => initHeapFinish h2 bsR isR none periods
          | some r =>
              match h2.read r with
              | none => none
              | some cf0 =>
                  initHeapFinish (h2.alloc cf0).1 bsR isR (some (h2.alloc cf0).2) periods

/-- Predicate: no period of the list can make .loc raise on this frame (its
presence among the string-cast keys implies a non-empty match). -/
def noKeyError (df : DataFrame) (ps : List String) : Prop :=
  ∀ q ∈ ps, q ∈ df.index.map valueToStr → df.locStr q ≠ []

instance (df : DataFrame) (ps : List String) : Decidable (noKeyError df ps) :=
  inferInstanceAs (Decidable (∀ q ∈ ps, q ∈ df.index.map valueToStr → df.locStr q ≠ []))

/-- Balance sheet of the C1 witness: one period with zero denominators. -/
def bsC1W : DataFrame :=
  ⟨["period", "current_assets", "current_liabilities", "total_assets"],
   [Value.vint 0],
   [[Value.vstr "P1", Value.vint 100, Value.vint 0, Value.vint 0]]⟩

/-- Income statement of the C1 witness: a negative net income. -/
def isC1W : DataFrame :=
  ⟨["period", "net_income"], [Value.vint 0], [[Value.vstr "P1", Value.vint (-5)]]⟩

/-- Analyzer of the C1 witness. -/
def aC1W : FinancialRatioAnalyzer := FinancialRatioAnalyzer.init bsC1W isC1W none none

/-- Boolean prefix test on character lists. -/
def listPrefixEq : List Char → List Char → Bool
  | [], _ => true
  | _ :: _, [] => false
  | a :: as1, b :: bs1 => a == b && listPrefixEq as1 bs1

/-- Boolean infix test on character lists. -/
def listContainsSub (pat : List Char) : List Char → Bool
  | [] => pat.isEmpty
  | c :: cs => listPrefixEq pat (c :: cs) || listContainsSub pat cs

/-- Substring test used to state what a diagnostic message mentions. -/
def strContains (hay pat : String) : Bool := listContainsSub pat.data hay.data

/-- Balance sheet of the C2 counterexample: total_assets is missing. -/
def bsC2X : DataFrame := ⟨["foo"], [Value.vstr "P1"], [[Value.vint 1]]⟩

/-- Income statement of the C2 counterexample: net_income is missing. -/
def isC2X : DataFrame := ⟨["bar"], [Value.vstr "P1"], [[Value.vint 2]]⟩

/-- Analyzer of the C2 counterexample: both tables lack a required column. -/
def aC2X : FinancialRatioAnalyzer := FinancialRatioAnalyzer.init bsC2X isC2X none none

/-- Balance sheet missing only current_liabilities, for the C2 witness. -/
def bsC2W : DataFrame := ⟨["current_assets"], [Value.vstr "P1"], [[Value.vint 1]]⟩

/-- Income statement with net_income present, for the C2 witness. -/
def isC2W : DataFrame := ⟨["net_income"], [Value.vstr "P1"], [[Value.vint 2]]⟩

/-- Analyzer for the first and third conjuncts of the C2 witness: the
balance sheet lacks current_liabilities and total_assets, the income
statement has net_income. -/
def aC2W : FinancialRatioAnalyzer := FinancialRatioAnalyzer.init bsC2W isC2W none none

/-- Balance sheet of the C3 counterexample: integer period values. -/
def bsC3X : DataFrame :=
  ⟨["period", "current_assets", "current_liabilities"],
   [Value.vint 0],
   [[Value.vint 2023, Value.vint 100, Value.vint 50]]⟩

/-- Income statement of the C3 counterexample: integer period values. -/
def isC3X : DataFrame :=
  ⟨["period", "net_income"], [Value.vint 0], [[Value.vint 2023, Value.vint 7]]⟩

/-- Analyzer of the C3 counterexample. -/
def aC3X : FinancialRatioAnalyzer := FinancialRatioAnalyzer.init bsC3X isC3X none none

/-- Frame with string period values for the C3 witness. -/
def dfC3W : DataFrame :=
  ⟨["period", "net_income"], [Value.vint 0],
   [[Value.vstr "2023Q1", Value.vint 7], [Value.vstr "2023Q2", Value.vint 8]]⟩

instance {ε α : Type} [DecidableEq ε] [DecidableEq α] : DecidableEq (Except ε α) := fun a b =>
  match a, b with
  | .error e1, .error e2 =>
      if h : e1 = e2 then isTrue (by rw [h]) else isFalse (by simp [h])
  | .ok x, .ok y =>
      if h : x = y then isTrue (by rw [h]) else isFalse (by simp [h])
  | .error _, .ok _ => isFalse (by simp)
  | .ok _, .error _ => isFalse (by simp)

/-- Balance sheet of the C4 witness: one fully valid period P1 (with zero
current liabilities) and no period P2. -/
def bsC4W : DataFrame :=
  ⟨["period", "current_assets", "current_liabilities"],
   [Value.vint 0],
   [[Value.vstr "P1", Value.vint 10, Value.vint 0]]⟩

/-- Income statement of the C4 witness. -/
def isC4W : DataFrame :=
  ⟨["period", "net_income"], [Value.vint 0], [[Value.vstr "P1", Value.vint 3]]⟩

/-- Analyzer of the C4 witness. -/
def aC4W : FinancialRatioAnalyzer := FinancialRatioAnalyzer.init bsC4W isC4W none none

/-- Small DataFrame payload for the C6 coercion scenarios. -/
def dC6 : DataFrame := ⟨["period"], [Value.vint 0], [[Value.vstr "P1"]]⟩

/-- Statement object whose first probed conversion method raises and whose
later method would succeed. -/
def stmtC6X : PyVal :=
  .pyobj "<class \x27Statement\x27>" none
    [("get_dataframe", none), ("to_pandas", some (.pydf dC6))] [] none

/-- Total-failure object of the C7 witness: only unrecognized members and an
empty __dict__. -/
def objC7W : PyVal :=
  .pyobj "<class \x27Foo\x27>" none [("frobnicate", some .pynone)]
    [("weird", .pynone)] (some [])

/-- Two-cell heap holding the witness input tables. -/
def heapC9W : Heap := ⟨[bsC4W, isC4W]⟩

/-- Heap after the witness construction: inputs untouched, normalized
copies appended. -/
def heapC9W1 : Heap :=
  ⟨[bsC4W, isC4W, bsC4W.set_index "period", isC4W.set_index "period"]⟩

/-- Analyzer references of the witness construction. -/
def aC9W : AnalyzerRefs := ⟨2, 3, none, ["P1"]⟩

/-- A step that skips its period leaves the loop result unchanged. -/
theorem ratioLoop_skip (step : String → Except String (Option RatioResult))
    (p : String) (hp : step p = .ok none) :
    ∀ xs ys, ratioLoop step (xs ++ p :: ys) = ratioLoop step (xs ++ ys) := by
  intro xs ys
  induction xs with
  | nil =>
      cases h : ratioLoop step ys <;> simp [ratioLoop, hp, h]
  | cons q qs ih =>
      simp only [List.cons_append, ratioLoop, List.append_eq, ih]

/-- When every period's step succeeds, the loop raises nothing. -/
theorem ratioLoop_ok (step : String → Except String (Option RatioResult)) :
    ∀ ps, (∀ q ∈ ps, ∃ o, step q = .ok o) → ∃ rs, ratioLoop step ps = .ok rs := by
  intro ps
  induction ps with
  | nil => intro _; exact ⟨[], rfl⟩
  | cons q qs ih =>
      intro h
      obtain ⟨o, ho⟩ := h q (List.mem_cons_self q qs)
      obtain ⟨rest, hrest⟩ := ih (fun x hx => h x (List.mem_cons_of_mem q hx))
      cases o with
      | some r => exact ⟨r :: rest, by simp [ratioLoop, ho, hrest]⟩
      | none => exact ⟨rest, by simp [ratioLoop, ho, hrest]⟩

/-- When every period's step produces a result, the loop returns one result
per period. -/
theorem ratioLoop_length (step : String → Except String (Option RatioResult)) :
    ∀ ps rs, (∀ q ∈ ps, ∃ r, step q = .ok (some r)) →
      ratioLoop step ps = .ok rs → rs.length = ps.length := by
  intro ps
  induction ps with
  | nil => intro rs _ h; simp [ratioLoop] at h; simp [← h]
  | cons q qs ih =>
      intro rs h hloop
      obtain ⟨r, hr⟩ := h q (List.mem_cons_self q qs)
      simp only [ratioLoop, hr] at hloop
      cases hrest : ratioLoop step qs with
      | error e => rw [hrest] at hloop; exact absurd hloop (by simp)
      | ok rest =>
          rw [hrest] at hloop
          simp only [Except.ok.injEq] at hloop
          have := ih rest (fun x hx => h x (List.mem_cons_of_mem q hx)) hrest
          simp [← hloop, this]

/-- A result whose step produced it is among the loop's results. -/
theorem ratioLoop_mem (step : String → Except String (Option RatioResult)) :
    ∀ ps rs p r, ratioLoop step ps = .ok rs → p ∈ ps →
      step p = .ok (some r) → r ∈ rs := by
  intro ps
  induction ps with
  | nil => intro rs p r _ hp _; exact absurd hp (List.not_mem_nil p)
  | cons q qs ih =>
      intro rs p r hloop hp hstep
      simp only [ratioLoop] at hloop
      cases hq : step q with
      | error e => rw [hq] at hloop; exact absurd hloop (by simp)
      | ok o =>
          rw [hq] at hloop
          cases hrest : ratioLoop step qs with
          | error e => rw [hrest] at hloop; exact absurd hloop (by simp)
          | ok rest =>
              rw [hrest] at hloop
              simp only [Except.ok.injEq] at hloop
              rcases List.mem_cons.mp hp with hpq | hpqs
              · subst hpq
                rw [hstep] at hq
                cases hq
                simp [← hloop]
              · have hr := ih rest p r hrest hpqs hstep
                cases o with
                | some r0 => simp [← hloop, hr]
                | none => simp [← hloop, hr]

/-- The periods of the loop's results form an order-preserving selection of
the Period Set, given that the step stamps each result with its period. -/
theorem ratioLoop_sublist (step : String → Except String (Option RatioResult))
    (hstamp : ∀ p r, step p = .ok (some r) → r.period = p) :
    ∀ ps rs, ratioLoop step ps = .ok rs →
      List.Sublist (rs.map RatioResult.period) ps := by
  intro ps
  induction ps with
  | nil => intro rs h; simp [ratioLoop] at h; simp [← h]
  | cons q qs ih =>
      intro rs hloop
      simp only [ratioLoop] at hloop
      cases hq : step q with
      | error e => rw [hq] at hloop; exact absurd hloop (by simp)
      | ok o =>
          rw [hq] at hloop
          cases hrest : ratioLoop step qs with
          | error e => rw [hrest] at hloop; exact absurd hloop (by simp)
          | ok rest =>
              rw [hrest] at hloop
              simp only [Except.ok.injEq] at hloop
              cases o with
              | some r =>
                  rw [← hloop]
                  simp only [List.map_cons]
                  rw [hstamp q r hq]
                  exact List.Sublist.cons₂ q (ih rest hrest)
              | none =>
                  rw [← hloop]
                  exact List.Sublist.cons q (ih rest hrest)

/-- A non-empty .loc match means the period is among the index keys cast to
strings. -/
theorem locStr_ne_nil_mem (df : DataFrame) (p : String) (h : df.locStr p ≠ []) :
    p ∈ df.index.map valueToStr := by
  unfold DataFrame.locStr at h
  rw [ne_eq, List.filterMap_eq_nil_iff] at h
  push_neg at h
  obtain ⟨kr, hkr, hval⟩ := h
  have hk : kr.1 = Value.vstr p := by
    by_contra hne
    exact hval (if_neg hne)
  have hmem : kr.1 ∈ df.index := (List.of_mem_zip hkr).1
  rw [hk] at hmem
  exact List.mem_map.mpr ⟨Value.vstr p, hmem, rfl⟩

/-- The current-ratio step stamps each produced result with its period. -/
theorem crStep_stamp (bs : DataFrame) (p : String) (r : RatioResult)
    (h : crStep bs p = .ok (some r)) : r.period = p := by
  unfold crStep at h
  split at h
  · split at h
    · exact absurd h (by simp)
    · split at h
      · simp only [Except.ok.injEq, Option.some.injEq] at h
        rw [← h]
      · exact absurd h (by simp)
  · exact absurd h (by simp)

/-- The return-on-assets step stamps each produced result with its period. -/
theorem roaStep_stamp (is0 bs : DataFrame) (p : String) (r : RatioResult)
    (h : roaStep is0 bs p = .ok (some r)) : r.period = p := by
  unfold roaStep at h
  split at h
  · split at h
    · exact absurd h (by simp)
    · split at h
      · exact absurd h (by simp)
      · split at h
        · simp only [Except.ok.injEq, Option.some.injEq] at h
          rw [← h]
        · exact absurd h (by simp)
  · exact absurd h (by simp)

/-- A period outside the balance-sheet keys makes the current-ratio step a
silent skip. -/
theorem crStep_skip_not_mem (bs : DataFrame) (p : String)
    (h : p ∉ bs.index.map valueToStr) : crStep bs p = .ok none := by
  unfold crStep
  exact if_neg h

/-- A period outside either table's keys makes the return-on-assets step a
silent skip. -/
theorem roaStep_skip_not_mem (is0 bs : DataFrame) (p : String)
    (h : p ∉ is0.index.map valueToStr ∨ p ∉ bs.index.map valueToStr) :
    roaStep is0 bs p = .ok none := by
  unfold roaStep
  refine if_neg ?_
  intro hc
  rcases h with h | h
  · exact h hc.1
  · exact h hc.2

/-- A failed numeric conversion makes the current-ratio step a silent skip. -/
theorem crStep_skip_conv (bs : DataFrame) (p : String)
    (hne : bs.locStr p ≠ [])
    (h : singleRowFloat bs.cols (bs.locStr p) "current_assets" = none ∨
      singleRowFloat bs.cols (bs.locStr p) "current_liabilities" = none) :
    crStep bs p = .ok none := by
  unfold crStep
  rw [if_pos (locStr_ne_nil_mem bs p hne)]
  cases hl : bs.locStr p with
  | nil => exact absurd hl hne
  | cons r rest =>
      rw [hl] at h
      rcases h with h | h
      · simp [h]
      · cases hca : singleRowFloat bs.cols (r :: rest) "current_assets" <;> simp [hca, h]

/-- Under noKeyError the current-ratio step never raises. -/
theorem crStep_ok (bs : DataFrame) (ps : List String) (hnk : noKeyError bs ps) :
    ∀ q ∈ ps, ∃ o, crStep bs q = .ok o := by
  intro q hq
  unfold crStep
  by_cases hmem : q ∈ bs.index.map valueToStr
  · rw [if_pos hmem]
    cases hl : bs.locStr q with
    | nil => exact absurd hl (hnk q hq hmem)
    | cons r rest =>
        cases hca : singleRowFloat bs.cols (r :: rest) "current_assets" with
        | none => exact ⟨none, by simp [hca]⟩
        | some ca =>
            cases hcl : singleRowFloat bs.cols (r :: rest) "current_liabilities" with
            | none => exact ⟨none, by simp [hca, hcl]⟩
            | some cl =>
                refine ⟨some ⟨"Current Ratio", q,
                  if cl = 0 then PyFloat.inf else PyFloat.fin (ca / cl)⟩, ?_⟩
                simp [hca, hcl]
  · exact ⟨none, if_neg hmem⟩

/-- Under noKeyError on both tables the return-on-assets step never raises. -/
theorem roaStep_ok (is0 bs : DataFrame) (ps : List String)
    (hnkI : noKeyError is0 ps) (hnkB : noKeyError bs ps) :
    ∀ q ∈ ps, ∃ o, roaStep is0 bs q = .ok o := by
  intro q hq
  unfold roaStep
  by_cases hmem : q ∈ is0.index.map valueToStr ∧ q ∈ bs.index.map valueToStr
  · rw [if_pos hmem]
    cases hli : is0.locStr q with
    | nil => exact absurd hli (hnkI q hq hmem.1)
    | cons ri resti =>
        cases hlb : bs.locStr q with
        | nil => exact absurd hlb (hnkB q hq hmem.2)
        | cons rb restb =>
            cases hni : singleRowFloat is0.cols (ri :: resti) "net_income" with
            | none => exact ⟨none, by simp [hni]⟩
            | some ni =>
                cases hta : singleRowFloat bs.cols (rb :: restb) "total_assets" with
                | none => exact ⟨none, by simp [hni, hta]⟩
                | some ta =>
                    refine ⟨some ⟨"Return on Assets", q,
                      if ta = 0 then PyFloat.inf else PyFloat.fin (ni / ta)⟩, ?_⟩
                    simp [hni, hta]
  · exact ⟨none, if_neg hmem⟩

/-- A list with a found index contains an element satisfying the predicate. -/
theorem findIdx?_pred_mem {p : String → Bool} :
    ∀ (l : List String) (i j : Nat), List.findIdx? p l i = some j → ∃ x ∈ l, p x = true := by
  intro l
  induction l with
  | nil => intro i j h; simp [List.findIdx?] at h
  | cons x xs ih =>
      intro i j h
      rw [List.findIdx?_cons] at h
      by_cases hx : p x = true
      · exact ⟨x, List.mem_cons_self x xs, hx⟩
      · rw [if_neg hx] at h
        obtain ⟨y, hy, hpy⟩ := ih (i + 1) j h
        exact ⟨y, List.mem_cons_of_mem x hy, hpy⟩

/-- A successful cell read certifies that the column exists. -/
theorem getCell_col_mem (cols : List String) (row : List Value) (c : String)
    (v : Value) (h : getCell cols row c = some v) : c ∈ cols := by
  unfold getCell at h
  cases hidx : cols.findIdx? (fun x => x == c) with
  | none => rw [hidx] at h; exact absurd h (by simp)
  | some j =>
      obtain ⟨x, hx, hpx⟩ := findIdx?_pred_mem cols 0 j hidx
      have : x = c := by simpa using hpx
      rw [← this]
      exact hx

/-- A successful single-row conversion certifies the column exists. -/
theorem singleRowFloat_col_mem (cols : List String) (rows : List (List Value))
    (c : String) (x : ℚ) (h : singleRowFloat cols rows c = some x) : c ∈ cols := by
  cases rows with
  | nil => simp [singleRowFloat] at h
  | cons r rest =>
      cases rest with
      | nil =>
          simp only [singleRowFloat] at h
          cases hg : getCell cols r c with
          | none => rw [hg] at h; simp at h
          | some v => exact getCell_col_mem cols r c v hg
      | cons r2 rest2 => simp [singleRowFloat] at h

/-- The eager column check passes when every required column is present. -/
theorem require_columns_ok (df : DataFrame) (cs : List String) (n : String)
    (h : ∀ c ∈ cs, c ∈ df.cols) : _require_columns df cs n = .ok () := by
  have hf : cs.filter (fun c => !(df.cols.contains c)) = [] := by
    rw [List.filter_eq_nil_iff]
    intro a ha
    have he : List.elem a df.cols = true := List.elem_eq_true_of_mem (h a ha)
    simp only [List.contains, he, Bool.not_true, Bool.false_eq_true, not_false_eq_true]
  unfold _require_columns
  rw [hf]
  rfl

/-- With a unique row match and a denominator converting to zero, the
current-ratio step produces positive infinity whatever the numerator is. -/
theorem crStep_inf (bs : DataFrame) (p : String) (rb : List Value) (nca : ℚ)
    (hlb : bs.locStr p = [rb])
    (hca : singleRowFloat bs.cols [rb] "current_assets" = some nca)
    (hcl : singleRowFloat bs.cols [rb] "current_liabilities" = some 0) :
    crStep bs p = .ok (some ⟨"Current Ratio", p, PyFloat.inf⟩) := by
  have hmem : p ∈ bs.index.map valueToStr :=
    locStr_ne_nil_mem bs p (by rw [hlb]; simp)
  unfold crStep
  rw [if_pos hmem, hlb]
  simp [hca, hcl]

/-- With unique row matches and total assets converting to zero, the
return-on-assets step produces positive infinity whatever net income is. -/
theorem roaStep_inf (is0 bs : DataFrame) (p : String) (ri rb : List Value) (nni : ℚ)
    (hli : is0.locStr p = [ri])
    (hlb : bs.locStr p = [rb])
    (hni : singleRowFloat is0.cols [ri] "net_income" = some nni)
    (hta : singleRowFloat bs.cols [rb] "total_assets" = some 0) :
    roaStep is0 bs p = .ok (some ⟨"Return on Assets", p, PyFloat.inf⟩) := by
  have hmemI : p ∈ is0.index.map valueToStr :=
    locStr_ne_nil_mem is0 p (by rw [hli]; simp)
  have hmemB : p ∈ bs.index.map valueToStr :=
    locStr_ne_nil_mem bs p (by rw [hlb]; simp)
  unfold roaStep
  rw [if_pos ⟨hmemI, hmemB⟩, hli, hlb]
  simp [hni, hta]

/-- C1: for every period of the Period Set, in both calculate_current_ratio
and calculate_return_on_assets, a denominator (current_liabilities resp.
total_assets) converting to exactly zero yields a RatioResult of positive
infinity for that period and raises no error, regardless of the numerator's
value or sign. (The noKeyError hypotheses say that no period of the set can
make DataFrame.loc raise, which the claim's "raises no error" presupposes
for the other periods; and the unique-row-match hypotheses express that the
period resolves to one row of each table.) -/
theorem C1_zero_denominator_infinity
    (a : FinancialRatioAnalyzer) (p : String) (rb ri : List Value) (nca nni : ℚ)
    (hnkB : noKeyError a.balance_sheet a.periods)
    (hnkI : noKeyError a.income_stmt a.periods)
    (hp : p ∈ a.periods)
    (hlb : a.balance_sheet.locStr p = [rb])
    (hli : a.income_stmt.locStr p = [ri])
    (hca : singleRowFloat a.balance_sheet.cols [rb] "current_assets" = some nca)
    (hcl : singleRowFloat a.balance_sheet.cols [rb] "current_liabilities" = some 0)
    (hni : singleRowFloat a.income_stmt.cols [ri] "net_income" = some nni)
    (hta : singleRowFloat a.balance_sheet.cols [rb] "total_assets" = some 0) :
    (∃ rs, calculate_current_ratio a = .ok rs ∧
      (⟨"Current Ratio", p, PyFloat.inf⟩ : RatioResult) ∈ rs) ∧
    (∃ rs, calculate_return_on_assets a = .ok rs ∧
      (⟨"Return on Assets", p, PyFloat.inf⟩ : RatioResult) ∈ rs) := by
  constructor
  · have hreq : _require_columns a.balance_sheet
        ["current_assets", "current_liabilities"] "balance_sheet" = .ok () := by
      apply require_columns_ok
      intro c hc
      simp only [List.mem_cons, List.not_mem_nil, or_false] at hc
      rcases hc with rfl | rfl
      · exact singleRowFloat_col_mem _ _ _ _ hca
      · exact singleRowFloat_col_mem _ _ _ _ hcl
    obtain ⟨rs, hrs⟩ := ratioLoop_ok (crStep a.balance_sheet) a.periods
      (crStep_ok a.balance_sheet a.periods hnkB)
    refine ⟨rs, ?_, ?_⟩
    · unfold calculate_current_ratio
      rw [hreq]
      exact hrs
    · exact ratioLoop_mem (crStep a.balance_sheet) a.periods rs p _ hrs hp
        (crStep_inf a.balance_sheet p rb nca hlb hca hcl)
  · have hreqI : _require_columns a.income_stmt ["net_income"] "income_stmt" = .ok () := by
      apply require_columns_ok
      intro c hc
      simp only [List.mem_cons, List.not_mem_nil, or_false] at hc
      subst hc
      exact singleRowFloat_col_mem _ _ _ _ hni
    have hreqB : _require_columns a.balance_sheet ["total_assets"] "balance_sheet" = .ok () := by
      apply require_columns_ok
      intro c hc
      simp only [List.mem_cons, List.not_mem_nil, or_false] at hc
      subst hc
      exact singleRowFloat_col_mem _ _ _ _ hta
    obtain ⟨rs, hrs⟩ := ratioLoop_ok (roaStep a.income_stmt a.balance_sheet) a.periods
      (roaStep_ok a.income_stmt a.balance_sheet a.periods hnkI hnkB)
    refine ⟨rs, ?_, ?_⟩
    · unfold calculate_return_on_assets
      rw [hreqI, hreqB]
      exact hrs
    · exact ratioLoop_mem (roaStep a.income_stmt a.balance_sheet) a.periods rs p _ hrs hp
        (roaStep_inf a.income_stmt a.balance_sheet p ri rb nni hli hlb hni hta)

/-- Witness for C1: at a concrete analyzer whose only period has zero
current liabilities and zero total assets (and a negative net income), both
operations produce the period's result as positive infinity without error. -/
theorem C1_witness :
    (∃ rs, calculate_current_ratio aC1W = .ok rs ∧
      (⟨"Current Ratio", "P1", PyFloat.inf⟩ : RatioResult) ∈ rs) ∧
    (∃ rs, calculate_return_on_assets aC1W = .ok rs ∧
      (⟨"Return on Assets", "P1", PyFloat.inf⟩ : RatioResult) ∈ rs) :=
  C1_zero_denominator_infinity aC1W "P1"
    [Value.vint 100, Value.vint 0, Value.vint 0] [Value.vint (-5)] 100 (-5)
    (by decide) (by decide) (by decide) (by decide) (by decide)
    (by decide) (by decide) (by decide) (by decide)

/-- The eager column check fails with the full per-table missing list when
any required column is absent from that table. -/
theorem require_columns_error (df : DataFrame) (cs : List String) (n : String)
    (h : cs.filter (fun c => !(df.cols.contains c)) ≠ []) :
    _require_columns df cs n = .error (n ++ " missing columns: " ++
      pyStrList (cs.filter (fun c => !(df.cols.contains c)))) := by
  unfold _require_columns
  rw [if_neg]
  simp only [List.isEmpty_iff]
  exact h

/-- C2 (amended): a ratio call with a required column absent fails before
producing any result with a ValueError whose message lists every missing
required column of the FIRST table checked that has any (the balance sheet
for the current ratio; the income statement, then the balance sheet, for
return on assets). Columns missing from a later-checked table are not
reported when an earlier table already fails, which is the correction to
the claim. -/
theorem C2_missing_columns_schema_error (a : FinancialRatioAnalyzer) :
    (["current_assets", "current_liabilities"].filter
        (fun c => !(a.balance_sheet.cols.contains c)) ≠ [] →
      calculate_current_ratio a = .error ("balance_sheet missing columns: " ++
        pyStrList (["current_assets", "current_liabilities"].filter
          (fun c => !(a.balance_sheet.cols.contains c)))))
    ∧ ("net_income" ∉ a.income_stmt.cols →
      calculate_return_on_assets a =
        .error ("income_stmt missing columns: " ++ pyStrList ["net_income"]))
    ∧ ("net_income" ∈ a.income_stmt.cols → "total_assets" ∉ a.balance_sheet.cols →
      calculate_return_on_assets a =
        .error ("balance_sheet missing columns: " ++ pyStrList ["total_assets"])) := by
  refine ⟨?_, ?_, ?_⟩
  · intro h
    unfold calculate_current_ratio
    rw [require_columns_error a.balance_sheet _ _ h]
    rfl
  · intro hmem
    have hfil : ["net_income"].filter (fun c => !(a.income_stmt.cols.contains c)) =
        ["net_income"] := by
      simp [List.filter, hmem]
    unfold calculate_return_on_assets
    rw [require_columns_error a.income_stmt ["net_income"] "income_stmt" (by rw [hfil]; simp)]
    rw [hfil]
    rfl
  · intro hmemI hmemB
    have hreqI : _require_columns a.income_stmt ["net_income"] "income_stmt" = .ok () := by
      apply require_columns_ok
      intro c hc
      simp only [List.mem_cons, List.not_mem_nil, or_false] at hc
      subst hc
      exact hmemI
    have hfil : ["total_assets"].filter (fun c => !(a.balance_sheet.cols.contains c)) =
        ["total_assets"] := by
      simp [List.filter, hmemB]
    unfold calculate_return_on_assets
    rw [hreqI,
      require_columns_error a.balance_sheet ["total_assets"] "balance_sheet" (by rw [hfil]; simp)]
    rw [hfil]
    rfl

/-- Counterexample to C2 as stated: with net_income AND total_assets both
missing, calculate_return_on_assets reports only the income-statement
column; total_assets is a missing required column of the call, yet the
message never mentions it. -/
theorem C2_counterexample :
    "total_assets" ∉ aC2X.balance_sheet.cols ∧
    calculate_return_on_assets aC2X =
      .error "income_stmt missing columns: [\x27net_income\x27]" ∧
    strContains "income_stmt missing columns: [\x27net_income\x27]" "total_assets" = false := by
  refine ⟨by decide, by rfl, by decide⟩

/-- Witness for the amended C2 at concrete analyzers, one per conjunct. -/
theorem C2_witness :
    calculate_current_ratio aC2W =
      .error ("balance_sheet missing columns: " ++ pyStrList
        (["current_assets", "current_liabilities"].filter
          (fun c => !(aC2W.balance_sheet.cols.contains c)))) ∧
    calculate_return_on_assets aC2X =
      .error ("income_stmt missing columns: " ++ pyStrList ["net_income"]) ∧
    calculate_return_on_assets aC2W =
      .error ("balance_sheet missing columns: " ++ pyStrList ["total_assets"]) :=
  ⟨(C2_missing_columns_schema_error aC2W).1 (by decide),
   (C2_missing_columns_schema_error aC2X).2.1 (by decide),
   (C2_missing_columns_schema_error aC2W).2.2 (by decide) (by decide)⟩

/-- Lookup over a string-cast promoted key column matches exactly the rows
whose key stringifies to the query. -/
theorem filterMap_zip_str (rows : List (List Value)) (s : String)
    (k : List Value → Value) (e : List Value → List Value) :
    List.filterMap (fun kr => if kr.1 = Value.vstr s then some kr.2 else none)
      (List.zip (rows.map (fun r => Value.vstr (valueToStr (k r)))) (rows.map e)) =
    (rows.filter (fun r => valueToStr (k r) == s)).map e := by
  induction rows with
  | nil => rfl
  | cons r rs ih =>
      simp only [List.map_cons, List.zip_cons_cons, List.filterMap_cons, List.filter_cons]
      by_cases hc : valueToStr (k r) = s
      · rw [if_pos (by rw [hc]), if_pos (by simp [hc])]
        simp only [List.map_cons]
        rw [ih]
      · rw [if_neg (by intro hh; exact hc (by injection hh)), if_neg (by simp [hc])]
        exact ih

/-- Lookup over a promoted but uncast key column matches exactly the rows
whose key IS the query string as a value. -/
theorem filterMap_zip_raw (rows : List (List Value)) (s : String)
    (k : List Value → Value) (e : List Value → List Value) :
    List.filterMap (fun kr => if kr.1 = Value.vstr s then some kr.2 else none)
      (List.zip (rows.map k) (rows.map e)) =
    (rows.filter (fun r => k r == Value.vstr s)).map e := by
  induction rows with
  | nil => rfl
  | cons r rs ih =>
      simp only [List.map_cons, List.zip_cons_cons, List.filterMap_cons, List.filter_cons]
      by_cases hc : k r = Value.vstr s
      · rw [if_pos hc, if_pos (by simp [hc])]
        simp only [List.map_cons]
        rw [ih]
      · rw [if_neg hc, if_neg (by simp [hc])]
        exact ih

/-- A found index for the period column certifies the column's presence. -/
theorem period_col_mem (cols : List String) (j : Nat)
    (hj : cols.findIdx? (fun x => x == "period") = some j) : "period" ∈ cols := by
  obtain ⟨x, hx, hpx⟩ := findIdx?_pred_mem cols 0 j hj
  have : x = "period" := by simpa using hpx
  rwa [this] at hx

/-- C3 (amended): in the fetch pipeline's _normalize, a "period" column
becomes the row key and the keys are cast to strings, so looking a period up
by the string form of its original value returns exactly its row(s).  The
Ratio Engine's own __init__ promotes the "period" column to the row key but
does NOT cast the key values to strings: its index keeps the original
values, and a string lookup matches only the rows whose original period
value was that very string — for non-string period values the engine's
string lookup finds nothing (the correction to the claim). -/
theorem C3_period_promotion
    (df : DataFrame) (j : Nat)
    (hj : df.cols.findIdx? (fun x => x == "period") = some j) :
    (∀ s, (_normalize df).locStr s =
      (df.rows.filter (fun r => valueToStr (r.getD j Value.vnone) == s)).map
        (fun r => r.eraseIdx j)) ∧
    ((normalizeInit df).index = df.rows.map (fun r => r.getD j Value.vnone)) ∧
    (∀ s, (normalizeInit df).locStr s =
      (df.rows.filter (fun r => r.getD j Value.vnone == Value.vstr s)).map
        (fun r => r.eraseIdx j)) := by
  have hmem : "period" ∈ df.cols := period_col_mem df.cols j hj
  refine ⟨?_, ?_, ?_⟩
  · intro s
    unfold _normalize
    rw [if_pos hmem]
    unfold DataFrame.set_index
    rw [hj]
    unfold DataFrame.locStr
    simp only [List.map_map]
    exact filterMap_zip_str df.rows s (fun r => r.getD j Value.vnone)
      (fun r => r.eraseIdx j)
  · unfold normalizeInit
    rw [if_pos hmem]
    unfold DataFrame.set_index
    rw [hj]
  · intro s
    unfold normalizeInit
    rw [if_pos hmem]
    unfold DataFrame.set_index
    rw [hj]
    unfold DataFrame.locStr
    exact filterMap_zip_raw df.rows s (fun r => r.getD j Value.vnone)
      (fun r => r.eraseIdx j)

/-- Counterexample to C3 as stated: the Ratio Engine promotes the integer
period 2023 to the row key without casting it to a string, so looking up the
original period value as the string "2023" returns no row, and the engine's
own current-ratio loop — whose Period Set is exactly ["2023"] — dies with an
uncaught KeyError instead of finding the row. -/
theorem C3_counterexample :
    aC3X.balance_sheet.index = [Value.vint 2023] ∧
    aC3X.balance_sheet.locStr "2023" = [] ∧
    aC3X.periods = ["2023"] ∧
    calculate_current_ratio aC3X = .error (keyError "2023") := by
  refine ⟨by rfl, by rfl, by decide, by rfl⟩

/-- Witness for the amended C3 at a concrete frame: _normalize makes the
string lookup of each original period value return its row, and the
engine's promotion keeps the original values as keys. -/
theorem C3_witness :
    ((_normalize dfC3W).locStr "2023Q2" = [[Value.vint 8]]) ∧
    ((normalizeInit dfC3W).index = [Value.vstr "2023Q1", Value.vstr "2023Q2"]) ∧
    ((normalizeInit dfC3W).locStr "2023Q2" = [[Value.vint 8]]) := by
  obtain ⟨h1, h2, h3⟩ := C3_period_promotion dfC3W 0 (by decide)
  refine ⟨?_, ?_, ?_⟩
  · rw [h1 "2023Q2"]; decide
  · rw [h2]; decide
  · rw [h3 "2023Q2"]; decide

/-- A failed numeric conversion makes the return-on-assets step a silent
skip. -/
theorem roaStep_skip_conv (is0 bs : DataFrame) (p : String)
    (hni0 : is0.locStr p ≠ []) (hnb0 : bs.locStr p ≠ [])
    (h : singleRowFloat is0.cols (is0.locStr p) "net_income" = none ∨
      singleRowFloat bs.cols (bs.locStr p) "total_assets" = none) :
    roaStep is0 bs p = .ok none := by
  unfold roaStep
  rw [if_pos ⟨locStr_ne_nil_mem _ _ hni0, locStr_ne_nil_mem _ _ hnb0⟩]
  cases hli : is0.locStr p with
  | nil => exact absurd hli hni0
  | cons ri resti =>
      cases hlb : bs.locStr p with
      | nil => exact absurd hlb hnb0
      | cons rb restb =>
          rw [hli, hlb] at h
          rcases h with h | h
          · simp [h]
          · cases hni2 : singleRowFloat is0.cols (ri :: resti) "net_income" <;>
              simp [hni2, h]

/-- A skipped period leaves calculate_current_ratio unchanged. -/
theorem calcCR_skip (a : FinancialRatioAnalyzer) (p : String) (xs ys : List String)
    (h : crStep a.balance_sheet p = .ok none) :
    calculate_current_ratio { a with periods := xs ++ p :: ys } =
    calculate_current_ratio { a with periods := xs ++ ys } := by
  unfold calculate_current_ratio
  cases hreq : _require_columns a.balance_sheet
      ["current_assets", "current_liabilities"] "balance_sheet" with
  | error e => simp [hreq]
  | ok u => simp [hreq, ratioLoop_skip (crStep a.balance_sheet) p h xs ys]

/-- A skipped period leaves calculate_return_on_assets unchanged. -/
theorem calcROA_skip (a : FinancialRatioAnalyzer) (p : String) (xs ys : List String)
    (h : roaStep a.income_stmt a.balance_sheet p = .ok none) :
    calculate_return_on_assets { a with periods := xs ++ p :: ys } =
    calculate_return_on_assets { a with periods := xs ++ ys } := by
  unfold calculate_return_on_assets
  cases hreqI : _require_columns a.income_stmt ["net_income"] "income_stmt" with
  | error e => simp [hreqI]
  | ok u =>
      cases hreqB : _require_columns a.balance_sheet ["total_assets"] "balance_sheet" with
      | error e => simp [hreqI, hreqB]
      | ok u2 =>
          simp [hreqI, hreqB,
            ratioLoop_skip (roaStep a.income_stmt a.balance_sheet) p h xs ys]

/-- C4: a period of the Period Set that is absent from a required table's
(string-cast) period keys, or whose required cells fail numeric conversion,
silently produces no RatioResult in either operation and raises no error,
leaving every other period's result unchanged; and against a Period Set
whose other periods are fully covered, one such period shrinks the result
sequence by exactly one. -/
theorem C4_silent_skip
    (a : FinancialRatioAnalyzer) (p : String) (xs ys : List String) :
    (p ∉ a.balance_sheet.index.map valueToStr →
      calculate_current_ratio { a with periods := xs ++ p :: ys } =
      calculate_current_ratio { a with periods := xs ++ ys }) ∧
    ((p ∉ a.income_stmt.index.map valueToStr ∨ p ∉ a.balance_sheet.index.map valueToStr) →
      calculate_return_on_assets { a with periods := xs ++ p :: ys } =
      calculate_return_on_assets { a with periods := xs ++ ys }) ∧
    (a.balance_sheet.locStr p ≠ [] →
      (singleRowFloat a.balance_sheet.cols (a.balance_sheet.locStr p) "current_assets" = none ∨
        singleRowFloat a.balance_sheet.cols (a.balance_sheet.locStr p) "current_liabilities" = none) →
      calculate_current_ratio { a with periods := xs ++ p :: ys } =
      calculate_current_ratio { a with periods := xs ++ ys }) ∧
    (a.income_stmt.locStr p ≠ [] → a.balance_sheet.locStr p ≠ [] →
      (singleRowFloat a.income_stmt.cols (a.income_stmt.locStr p) "net_income" = none ∨
        singleRowFloat a.balance_sheet.cols (a.balance_sheet.locStr p) "total_assets" = none) →
      calculate_return_on_assets { a with periods := xs ++ p :: ys } =
      calculate_return_on_assets { a with periods := xs ++ ys }) ∧
    ((∀ q ∈ xs ++ ys, ∃ r, crStep a.balance_sheet q = .ok (some r)) →
      p ∉ a.balance_sheet.index.map valueToStr →
      "current_assets" ∈ a.balance_sheet.cols →
      "current_liabilities" ∈ a.balance_sheet.cols →
      ∃ rs, calculate_current_ratio { a with periods := xs ++ p :: ys } = .ok rs ∧
        rs.length = (xs ++ p :: ys).length - 1) := by
  refine ⟨?_, ?_, ?_, ?_, ?_⟩
  · intro h
    exact calcCR_skip a p xs ys (crStep_skip_not_mem a.balance_sheet p h)
  · intro h
    exact calcROA_skip a p xs ys (roaStep_skip_not_mem a.income_stmt a.balance_sheet p h)
  · intro hne h
    exact calcCR_skip a p xs ys (crStep_skip_conv a.balance_sheet p hne h)
  · intro hneI hneB h
    exact calcROA_skip a p xs ys
      (roaStep_skip_conv a.income_stmt a.balance_sheet p hneI hneB h)
  · intro hcov hnm hc1 hc2
    have hreq : _require_columns a.balance_sheet
        ["current_assets", "current_liabilities"] "balance_sheet" = .ok () := by
      apply require_columns_ok
      intro c hc
      simp only [List.mem_cons, List.not_mem_nil, or_false] at hc
      rcases hc with rfl | rfl
      · exact hc1
      · exact hc2
    have hskip := ratioLoop_skip (crStep a.balance_sheet) p
      (crStep_skip_not_mem a.balance_sheet p hnm) xs ys
    obtain ⟨rs, hrs⟩ := ratioLoop_ok (crStep a.balance_sheet) (xs ++ ys)
      (fun q hq => (hcov q hq).elim (fun r hr => ⟨some r, hr⟩))
    refine ⟨rs, ?_, ?_⟩
    · unfold calculate_current_ratio
      rw [hreq]
      simp only []
      rw [hskip]
      exact hrs
    · have := ratioLoop_length (crStep a.balance_sheet) (xs ++ ys) rs hcov hrs
      rw [this]
      simp [Nat.add_comm]

/-- Witness for C4: inserting the uncovered period P2 into the Period Set
leaves the result list unchanged, and with P1 fully covered the produced
sequence is exactly one shorter than the two-element Period Set. -/
theorem C4_witness :
    calculate_current_ratio { aC4W with periods := ["P1", "P2"] } =
      calculate_current_ratio { aC4W with periods := ["P1"] } ∧
    (∃ rs, calculate_current_ratio { aC4W with periods := ["P1", "P2"] } = .ok rs ∧
      rs.length = (["P1", "P2"] : List String).length - 1) := by
  have h := C4_silent_skip aC4W "P2" ["P1"] []
  refine ⟨h.1 (by decide), h.2.2.2.2 ?_ (by decide) (by decide) (by decide)⟩
  intro q hq
  simp only [List.append_nil, List.mem_cons, List.not_mem_nil, or_false] at hq
  subst hq
  exact ⟨⟨"Current Ratio", "P1", PyFloat.inf⟩, by decide⟩

/-- C5: a caller-supplied periods list is taken verbatim as the Period Set;
otherwise the Period Set is the set-intersection of the (normalized)
balance-sheet and income-statement period keys as strings, sorted in
code-point lexicographic order with no duplicates; and both ratio
operations emit their results in Period Set order (an order-preserving
selection of the Period Set). -/
theorem C5_period_set (bs is0 : DataFrame) (cf : Option DataFrame) :
    (∀ l, (FinancialRatioAnalyzer.init bs is0 cf (some l)).periods = l) ∧
    (List.Sorted strLeR (FinancialRatioAnalyzer.init bs is0 cf none).periods ∧
      (FinancialRatioAnalyzer.init bs is0 cf none).periods.Nodup ∧
      (∀ s, s ∈ (FinancialRatioAnalyzer.init bs is0 cf none).periods ↔
        s ∈ (FinancialRatioAnalyzer.init bs is0 cf none).balance_sheet.index.map valueToStr ∧
        s ∈ (FinancialRatioAnalyzer.init bs is0 cf none).income_stmt.index.map valueToStr)) ∧
    (∀ (a : FinancialRatioAnalyzer) rs, calculate_current_ratio a = .ok rs →
      List.Sublist (rs.map RatioResult.period) a.periods) ∧
    (∀ (a : FinancialRatioAnalyzer) rs, calculate_return_on_assets a = .ok rs →
      List.Sublist (rs.map RatioResult.period) a.periods) := by
  have hper : (FinancialRatioAnalyzer.init bs is0 cf none).periods =
      List.insertionSort strLeR
        (((normalizeInit bs).index.map valueToStr).dedup.filter
          (fun s => ((normalizeInit is0).index.map valueToStr).dedup.contains s)) := rfl
  refine ⟨fun l => rfl, ⟨?_, ?_, ?_⟩, ?_, ?_⟩
  · rw [hper]
    exact List.sorted_insertionSort strLeR _
  · rw [hper]
    refine (List.perm_insertionSort strLeR _).symm.nodup ?_
    exact List.Nodup.filter _
      (List.nodup_dedup ((normalizeInit bs).index.map valueToStr))
  · intro s
    have hbseq : (FinancialRatioAnalyzer.init bs is0 cf none).balance_sheet =
        normalizeInit bs := rfl
    have hiseq : (FinancialRatioAnalyzer.init bs is0 cf none).income_stmt =
        normalizeInit is0 := rfl
    rw [hper, hbseq, hiseq, List.mem_insertionSort, List.mem_filter, List.mem_dedup]
    constructor
    · rintro ⟨h1, h2⟩
      simp only [List.contains] at h2
      exact ⟨h1, List.mem_dedup.mp (List.mem_of_elem_eq_true h2)⟩
    · rintro ⟨h1, h2⟩
      refine ⟨h1, ?_⟩
      simp only [List.contains]
      exact List.elem_eq_true_of_mem (List.mem_dedup.mpr h2)
  · intro a rs h
    unfold calculate_current_ratio at h
    cases hreq : _require_columns a.balance_sheet
        ["current_assets", "current_liabilities"] "balance_sheet" with
    | error e => rw [hreq] at h; exact absurd h (by simp)
    | ok u =>
        rw [hreq] at h
        exact ratioLoop_sublist (crStep a.balance_sheet)
          (crStep_stamp a.balance_sheet) a.periods rs h
  · intro a rs h
    unfold calculate_return_on_assets at h
    cases hreqI : _require_columns a.income_stmt ["net_income"] "income_stmt" with
    | error e => rw [hreqI] at h; exact absurd h (by simp)
    | ok u =>
        rw [hreqI] at h
        cases hreqB : _require_columns a.balance_sheet ["total_assets"] "balance_sheet" with
        | error e => rw [hreqB] at h; exact absurd h (by simp)
        | ok u2 =>
            rw [hreqB] at h
            exact ratioLoop_sublist (roaStep a.income_stmt a.balance_sheet)
              (roaStep_stamp a.income_stmt a.balance_sheet) a.periods rs h

/-- Witness for C5: a verbatim caller-supplied Period Set (even unsorted),
sortedness of the derived Period Set, and results in Period Set order, all
at concrete analyzers. -/
theorem C5_witness :
    (FinancialRatioAnalyzer.init bsC4W isC4W none (some ["Z", "A"])).periods = ["Z", "A"] ∧
    List.Sorted strLeR aC4W.periods ∧
    List.Sublist
      (([⟨"Current Ratio", "P1", PyFloat.inf⟩] : List RatioResult).map RatioResult.period)
      aC4W.periods :=
  ⟨(C5_period_set bsC4W isC4W none).1 ["Z", "A"],
   (C5_period_set bsC4W isC4W none).2.1.1,
   (C5_period_set bsC4W isC4W none).2.2.1 aC4W
     [⟨"Current Ratio", "P1", PyFloat.inf⟩] (by decide)⟩

/-- Counterexample to C6 as stated: normalize_statement (one of the two
coercion entry points the claim covers) probes get_dataframe first, finds it
present, calls it, and propagates its exception as the whole coercion's
failure — it never reaches the succeeding to_pandas later in its own
priority list. -/
theorem C6_counterexample :
    normalize_statement stmtC6X = .error "exception raised by get_dataframe" := by
  rfl

/-- C6 (amended): ensure_dataframe — but not normalize_statement — isolates
a probed conversion method's failure: an object whose to_frame raises is
still coerced via a later succeeding method (to_pandas), and when every
probed method fails the later attribute strategy (data holding a table) is
still reached, whatever the rest of the object looks like. -/
theorem C6_strategy_fallback (ty nm : String) (c : Option (Option PyVal))
    (attrs : List (String × PyVal)) (dict : Option (List (String × Value)))
    (d : DataFrame) :
    ensure_dataframe
      (.pyobj ty c [("to_frame", none), ("to_pandas", some (.pydf d))] attrs dict) nm =
      .ok d ∧
    ensure_dataframe
      (.pyobj ty c [("to_frame", none)] [("data", .pydf d)] dict) nm = .ok d := by
  exact ⟨rfl, rfl⟩

/-- Reflexivity of the boolean prefix test. -/
theorem listPrefixEq_refl (xs : List Char) : listPrefixEq xs xs = true := by
  induction xs with
  | nil => rfl
  | cons c cs ih => simp [listPrefixEq, ih]

/-- A boolean prefix witness survives appending on the right. -/
theorem listPrefixEq_append (pat : List Char) :
    ∀ zs ys, listPrefixEq pat zs = true → listPrefixEq pat (zs ++ ys) = true := by
  induction pat with
  | nil => intro zs ys _; rfl
  | cons p ps ih =>
      intro zs ys h
      cases zs with
      | nil => simp [listPrefixEq] at h
      | cons z zs =>
          simp only [listPrefixEq, Bool.and_eq_true, beq_iff_eq] at h
          simp only [List.cons_append, listPrefixEq, Bool.and_eq_true, beq_iff_eq]
          exact ⟨h.1, ih zs ys h.2⟩

/-- A boolean infix witness survives appending on the right. -/
theorem listContainsSub_left (pat : List Char) :
    ∀ xs ys, listContainsSub pat xs = true → listContainsSub pat (xs ++ ys) = true := by
  intro xs
  induction xs with
  | nil =>
      intro ys h
      simp only [listContainsSub, List.isEmpty_iff] at h
      subst h
      cases ys with
      | nil => rfl
      | cons c cs => simp [listContainsSub, listPrefixEq]
  | cons x xs ih =>
      intro ys h
      simp only [listContainsSub, Bool.or_eq_true] at h
      rcases h with h | h
      · simp only [List.cons_append, listContainsSub, Bool.or_eq_true]
        refine Or.inl ?_
        show listPrefixEq pat ((x :: xs) ++ ys) = true
        exact listPrefixEq_append pat (x :: xs) ys h
      · simp only [List.cons_append, listContainsSub, Bool.or_eq_true]
        exact Or.inr (ih ys h)

/-- A boolean infix witness survives prepending on the left. -/
theorem listContainsSub_right (pat : List Char) :
    ∀ xs ys, listContainsSub pat ys = true → listContainsSub pat (xs ++ ys) = true := by
  intro xs
  induction xs with
  | nil => intro ys h; exact h
  | cons x xs ih =>
      intro ys h
      simp only [List.cons_append, listContainsSub, Bool.or_eq_true]
      exact Or.inr (ih ys h)

/-- Every character list is an infix of itself. -/
theorem listContainsSub_refl (pat : List Char) : listContainsSub pat pat = true := by
  cases pat with
  | nil => rfl
  | cons p ps => simp [listContainsSub, listPrefixEq_refl]

/-- A substring witness survives appending on the right. -/
theorem strContains_left (x y p : String) (h : strContains x p = true) :
    strContains (x ++ y) p = true := by
  unfold strContains at h ⊢
  rw [String.data_append]
  exact listContainsSub_left p.data x.data y.data h

/-- A substring witness survives prepending on the left. -/
theorem strContains_right (x y p : String) (h : strContains y p = true) :
    strContains (x ++ y) p = true := by
  unfold strContains at h ⊢
  rw [String.data_append]
  exact listContainsSub_right p.data x.data y.data h

/-- Every string is a substring of itself. -/
theorem strContains_refl (p : String) : strContains p p = true :=
  listContainsSub_refl p.data

/-- Exhausting the method names finds nothing when none is on the object. -/
theorem tryMethods_none (ty : String) (c : Option (Option PyVal))
    (ms : List (String × Option PyVal)) (attrs : List (String × PyVal))
    (dict : Option (List (String × Value))) :
    ∀ names, (∀ m ∈ names, (ms.find? (fun q => q.1 == m)) = none) →
      tryMethods (.pyobj ty c ms attrs dict) names = none := by
  intro names
  induction names with
  | nil => intro _; rfl
  | cons n ns ih =>
      intro h
      have hn := h n (List.mem_cons_self n ns)
      simp only [tryMethods, lookupMethod, hn, Option.map_none']
      exact ih (fun m hm => h m (List.mem_cons_of_mem n hm))

/-- Exhausting the attribute names finds nothing when none is on the
object. -/
theorem tryAttrs_none (ty : String) (c : Option (Option PyVal))
    (ms : List (String × Option PyVal)) (attrs : List (String × PyVal))
    (dict : Option (List (String × Value))) :
    ∀ names, (∀ a ∈ names, (attrs.find? (fun q => q.1 == a)) = none) →
      tryAttrs (.pyobj ty c ms attrs dict) names = none := by
  intro names
  induction names with
  | nil => intro _; rfl
  | cons n ns ih =>
      intro h
      have hn := h n (List.mem_cons_self n ns)
      simp only [tryAttrs, lookupAttr, hn, Option.map_none']
      exact ih (fun m hm => h m (List.mem_cons_of_mem n hm))

/-- C7: when every coercion strategy fails — no recognized conversion
method, no recognized tabular attribute, not a list/dict/tuple, and no
usable __dict__ — ensure_dataframe fails with the diagnostic TypeError whose
message includes the value's declared type, the caller-supplied label, and
the manual-inspection suggestion. -/
theorem C7_total_failure (ty nm : String) (c : Option (Option PyVal))
    (ms : List (String × Option PyVal)) (attrs : List (String × PyVal))
    (dict : Option (List (String × Value)))
    (hms : ∀ m ∈ method_names, (ms.find? (fun q => q.1 == m)) = none)
    (hattrs : ∀ a ∈ attr_names, (attrs.find? (fun q => q.1 == a)) = none)
    (hdict : dict = none ∨ dict = some []) :
    ensure_dataframe (.pyobj ty c ms attrs dict) nm = .error (conversionErrorMsg nm ty) ∧
    strContains (conversionErrorMsg nm ty) ty = true ∧
    strContains (conversionErrorMsg nm ty) nm = true ∧
    strContains (conversionErrorMsg nm ty) "Inspect with" = true := by
  have htm := tryMethods_none ty c ms attrs dict method_names hms
  have hta := tryAttrs_none ty c ms attrs dict attr_names hattrs
  refine ⟨?_, ?_, ?_, ?_⟩
  · rcases hdict with rfl | rfl <;> simp [ensure_dataframe, htm, hta, pyType]
  · unfold conversionErrorMsg
    iterate 11 apply strContains_left
    apply strContains_right
    exact strContains_refl ty
  · unfold conversionErrorMsg
    apply strContains_left
    apply strContains_right
    exact strContains_refl nm
  · unfold conversionErrorMsg
    iterate 9 apply strContains_left
    apply strContains_right
    decide

/-- Witness for C7 at a concrete unconvertible object. -/
theorem C7_witness :
    ensure_dataframe objC7W "balance_sheet" =
      .error (conversionErrorMsg "balance_sheet" "<class \x27Foo\x27>") ∧
    strContains (conversionErrorMsg "balance_sheet" "<class \x27Foo\x27>")
      "<class \x27Foo\x27>" = true ∧
    strContains (conversionErrorMsg "balance_sheet" "<class \x27Foo\x27>")
      "balance_sheet" = true ∧
    strContains (conversionErrorMsg "balance_sheet" "<class \x27Foo\x27>")
      "Inspect with" = true :=
  C7_total_failure "<class \x27Foo\x27>" "balance_sheet" none
    [("frobnicate", some .pynone)] [("weird", .pynone)] (some [])
    (by intro m hm; fin_cases hm <;> rfl)
    (by intro a ha; fin_cases ha <;> rfl) (Or.inr rfl)

/-- C8: a value that is already a canonical table (a DataFrame) is returned
unchanged — identically — by both coercion helpers, for every label, so
coercion is idempotent on canonical tables. -/
theorem C8_identity_on_tables (d : DataFrame) (nm : String) :
    ensure_dataframe (.pydf d) nm = .ok d ∧
    normalize_statement (.pydf d) = .ok (.pydf d) :=
  ⟨rfl, rfl⟩

/-- C10: ensure_dataframe applied to None fails, for every label, with the
TypeError whose message names the label and states that the value is None
(in particular it never returns a table); the None check sits before every
conversion strategy in the source. -/
theorem C10_none_rejected (nm : String) :
    ensure_dataframe .pynone nm = .error (nm ++ " is None") :=
  rfl

/-- A successful dereference certifies the reference is in range. -/
theorem Heap.read_lt (h : Heap) (r : Nat) (d : DataFrame) (hr : h.read r = some d) :
    r < h.cells.length := by
  by_contra hge
  rw [Heap.read, List.getElem?_eq_none_iff.mpr (Nat.le_of_not_lt hge)] at hr
  exact absurd hr (by simp)

/-- Allocation does not disturb existing cells. -/
theorem Heap.read_alloc (h : Heap) (d : DataFrame) (r : Nat) (hr : r < h.cells.length) :
    ((h.alloc d).1).read r = h.read r := by
  show (h.cells ++ [d])[r]? = h.cells[r]?
  exact List.getElem?_append_left hr

/-- A freshly allocated cell holds the allocated contents. -/
theorem Heap.read_alloc_self (h : Heap) (d : DataFrame) :
    ((h.alloc d).1).read ((h.alloc d).2) = some d := by
  show (h.cells ++ [d])[h.cells.length]? = some d
  exact List.getElem?_concat_length h.cells d

/-- An in-place write does not disturb other cells. -/
theorem Heap.read_write_ne (h : Heap) (r r' : Nat) (d : DataFrame) (hne : r' ≠ r) :
    (h.write r' d).read r = h.read r := by
  show (h.cells.set r' d)[r]? = h.cells[r]?
  exact List.getElem?_set_ne hne

/-- In-place period normalization does not disturb other cells. -/
theorem Heap.read_normRef_ne (h : Heap) (r r' : Nat) (hne : r' ≠ r) :
    (h.normRef r').read r = h.read r := by
  unfold Heap.normRef
  cases hd : h.read r' with
  | none => rfl
  | some d =>
      show (if "period" ∈ d.cols then h.write r' (d.set_index "period") else h).read r =
        h.read r
      by_cases hp : "period" ∈ d.cols
      · rw [if_pos hp]
        exact Heap.read_write_ne h r r' _ hne
      · rw [if_neg hp]

/-- In-place period normalization leaves the cell holding the normalized
table. -/
theorem Heap.read_normRef_self (h : Heap) (r : Nat) (d : DataFrame)
    (hr : h.read r = some d) :
    (h.normRef r).read r = some (normalizeInit d) := by
  unfold Heap.normRef
  rw [hr]
  show (if "period" ∈ d.cols then h.write r (d.set_index "period") else h).read r =
    some (normalizeInit d)
  unfold normalizeInit
  by_cases hp : "period" ∈ d.cols
  · rw [if_pos hp, if_pos hp]
    show (h.cells.set r _)[r]? = _
    rw [List.getElem?_set_self (Heap.read_lt h r d hr)]
  · rw [if_neg hp, if_neg hp]
    exact hr

/-- The heap and references a successful initHeapFinish returns when there
is no cash flow: the input heap with the two copies normalized in place,
and references to exactly the copies. -/
theorem initHeapFinish_heap_none (h3 : Heap) (bsR isR : Nat)
    (periods : Option (List String)) (h6 : Heap) (a : AnalyzerRefs)
    (hfin : initHeapFinish h3 bsR isR none periods = some (h6, a)) :
    h6 = (h3.normRef bsR).normRef isR ∧
    a.balance_sheet = bsR ∧ a.income_stmt = isR ∧ a.cash_flow = none := by
  unfold initHeapFinish at hfin
  simp only [] at hfin
  cases hr1 : ((h3.normRef bsR).normRef isR).read bsR with
  | none => rw [hr1] at hfin; exact absurd hfin (by simp)
  | some bsN =>
      cases hr2 : ((h3.normRef bsR).normRef isR).read isR with
      | none => rw [hr1, hr2] at hfin; exact absurd hfin (by simp)
      | some isN =>
          rw [hr1, hr2] at hfin
          simp only [Option.some.injEq, Prod.mk.injEq] at hfin
          exact ⟨hfin.1.symm, by rw [← hfin.2], by rw [← hfin.2], by rw [← hfin.2]⟩

/-- The heap and references a successful initHeapFinish returns with a cash
flow: the input heap with the three copies normalized in place, and
references to exactly the copies. -/
theorem initHeapFinish_heap_some (h3 : Heap) (bsR isR rc : Nat)
    (periods : Option (List String)) (h6 : Heap) (a : AnalyzerRefs)
    (hfin : initHeapFinish h3 bsR isR (some rc) periods = some (h6, a)) :
    h6 = ((h3.normRef bsR).normRef isR).normRef rc ∧
    a.balance_sheet = bsR ∧ a.income_stmt = isR ∧ a.cash_flow = some rc := by
  unfold initHeapFinish at hfin
  simp only [] at hfin
  cases hr1 : (((h3.normRef bsR).normRef isR).normRef rc).read bsR with
  | none => rw [hr1] at hfin; exact absurd hfin (by simp)
  | some bsN =>
      cases hr2 : (((h3.normRef bsR).normRef isR).normRef rc).read isR with
      | none => rw [hr1, hr2] at hfin; exact absurd hfin (by simp)
      | some isN =>
          rw [hr1, hr2] at hfin
          simp only [Option.some.injEq, Prod.mk.injEq] at hfin
          exact ⟨hfin.1.symm, by rw [← hfin.2], by rw [← hfin.2], by rw [← hfin.2]⟩

/-- Allocation grows the heap by one cell. -/
theorem Heap.length_alloc (h : Heap) (d : DataFrame) :
    (h.alloc d).1.cells.length = h.cells.length + 1 := by
  simp [Heap.alloc]

/-- C9: the analyzer constructor never mutates the caller-owned input
tables: for every heap whose balance-sheet, income-statement and cash-flow
references are live, a successful heap-level __init__ leaves every input
cell exactly as it was, and the analyzer's own balance-sheet and
income-statement cells hold the normalized copies (so normalization and all
later lookups act only on the copies — the ratio computations themselves
are read-only functions of those copies). -/
theorem C9_no_input_mutation (h0 : Heap) (bsRef isRef : Nat) (cfRef : Option Nat)
    (periods : Option (List String)) (h1 : Heap) (a : AnalyzerRefs)
    (hbsr : bsRef < h0.cells.length) (hisr : isRef < h0.cells.length)
    (hcfr : ∀ rc, cfRef = some rc → rc < h0.cells.length)
    (hinit : initHeap h0 bsRef isRef cfRef periods = some (h1, a)) :
    h1.read bsRef = h0.read bsRef ∧
    h1.read isRef = h0.read isRef ∧
    (∀ rc, cfRef = some rc → h1.read rc = h0.read rc) ∧
    (∀ b, h0.read bsRef = some b → h1.read a.balance_sheet = some (normalizeInit b)) ∧
    (∀ i, h0.read isRef = some i → h1.read a.income_stmt = some (normalizeInit i)) := by
  unfold initHeap at hinit
  obtain ⟨bs0, hbs⟩ : ∃ d, h0.read bsRef = some d := by
    rw [Heap.read, List.getElem?_eq_getElem hbsr]
    exact ⟨_, rfl⟩
  rw [hbs] at hinit
  simp only [] at hinit
  have hread1 : (h0.alloc bs0).1.read isRef = h0.read isRef :=
    Heap.read_alloc h0 bs0 isRef hisr
  obtain ⟨is0, his⟩ : ∃ d, h0.read isRef = some d := by
    rw [Heap.read, List.getElem?_eq_getElem hisr]
    exact ⟨_, rfl⟩
  rw [hread1, his] at hinit
  simp only [] at hinit
  have hbsRn : (h0.alloc bs0).2 = h0.cells.length := rfl
  have hisRn : ((h0.alloc bs0).1.alloc is0).2 = h0.cells.length + 1 := by
    show (h0.alloc bs0).1.cells.length = _
    exact Heap.length_alloc h0 bs0
  have hlen1 := Heap.length_alloc h0 bs0
  have hlen2 : ((h0.alloc bs0).1.alloc is0).1.cells.length = h0.cells.length + 2 := by
    rw [Heap.length_alloc, hlen1]
  have h2readbs : ∀ r, r < h0.cells.length →
      ((h0.alloc bs0).1.alloc is0).1.read r = h0.read r := by
    intro r hr
    rw [Heap.read_alloc (h0.alloc bs0).1 is0 r (by omega), Heap.read_alloc h0 bs0 r hr]
  have h2bsR : ((h0.alloc bs0).1.alloc is0).1.read ((h0.alloc bs0).2) = some bs0 := by
    rw [Heap.read_alloc (h0.alloc bs0).1 is0 ((h0.alloc bs0).2) (by rw [hbsRn, hlen1]; omega)]
    exact Heap.read_alloc_self h0 bs0
  have h2isR : ((h0.alloc bs0).1.alloc is0).1.read (((h0.alloc bs0).1.alloc is0).2) =
      some is0 := Heap.read_alloc_self (h0.alloc bs0).1 is0
  cases cfRef with
  | none =>
      simp only [] at hinit
      obtain ⟨hh1, hab, hai, hac⟩ :=
        initHeapFinish_heap_none _ _ _ periods h1 a hinit
      subst hh1
      have hneIB : (((h0.alloc bs0).1.alloc is0).2) ≠ ((h0.alloc bs0).2) := by
        rw [hisRn, hbsRn]; omega
      refine ⟨?_, ?_, ?_, ?_, ?_⟩
      · rw [Heap.read_normRef_ne _ bsRef _ (by rw [hisRn]; omega),
          Heap.read_normRef_ne _ bsRef _ (by rw [hbsRn]; omega)]
        exact h2readbs bsRef hbsr
      · rw [Heap.read_normRef_ne _ isRef _ (by rw [hisRn]; omega),
          Heap.read_normRef_ne _ isRef _ (by rw [hbsRn]; omega)]
        exact h2readbs isRef hisr
      · intro rc hrc
        exact absurd hrc (by simp)
      · intro b hb
        rw [hbs] at hb
        cases hb
        rw [hab, Heap.read_normRef_ne _ _ _ hneIB]
        exact Heap.read_normRef_self _ _ bs0 h2bsR
      · intro i hi
        rw [his] at hi
        cases hi
        rw [hai]
        refine Heap.read_normRef_self _ _ is0 ?_
        rw [Heap.read_normRef_ne _ _ _ hneIB.symm]
        exact h2isR
  | some rc =>
      have hrcn := hcfr rc rfl
      obtain ⟨cf0, hcf⟩ : ∃ d, h0.read rc = some d := by
        rw [Heap.read, List.getElem?_eq_getElem hrcn]
        exact ⟨_, rfl⟩
      simp only [] at hinit
      rw [h2readbs rc hrcn, hcf] at hinit
      simp only [] at hinit
      obtain ⟨hh1, hab, hai, hac⟩ :=
        initHeapFinish_heap_some _ _ _ _ periods h1 a hinit
      subst hh1
      have hcfRn : ((((h0.alloc bs0).1.alloc is0).1).alloc cf0).2 =
          h0.cells.length + 2 := by
        show (((h0.alloc bs0).1.alloc is0).1).cells.length = _
        exact hlen2
      have h3read : ∀ r, r < h0.cells.length →
          ((((h0.alloc bs0).1.alloc is0).1).alloc cf0).1.read r = h0.read r := by
        intro r hr
        rw [Heap.read_alloc _ cf0 r (by rw [hlen2]; omega)]
        exact h2readbs r hr
      have h3bsR : ((((h0.alloc bs0).1.alloc is0).1).alloc cf0).1.read ((h0.alloc bs0).2) =
          some bs0 := by
        rw [Heap.read_alloc _ cf0 _ (by rw [hlen2, hbsRn]; omega)]
        exact h2bsR
      have h3isR : ((((h0.alloc bs0).1.alloc is0).1).alloc cf0).1.read
          (((h0.alloc bs0).1.alloc is0).2) = some is0 := by
        rw [Heap.read_alloc _ cf0 _ (by rw [hlen2, hisRn]; omega)]
        exact h2isR
      have hneIB : (((h0.alloc bs0).1.alloc is0).2) ≠ ((h0.alloc bs0).2) := by
        rw [hisRn, hbsRn]; omega
      refine ⟨?_, ?_, ?_, ?_, ?_⟩
      · rw [Heap.read_normRef_ne _ bsRef _ (by rw [hcfRn]; omega),
          Heap.read_normRef_ne _ bsRef _ (by rw [hisRn]; omega),
          Heap.read_normRef_ne _ bsRef _ (by rw [hbsRn]; omega)]
        exact h3read bsRef hbsr
      · rw [Heap.read_normRef_ne _ isRef _ (by rw [hcfRn]; omega),
          Heap.read_normRef_ne _ isRef _ (by rw [hisRn]; omega),
          Heap.read_normRef_ne _ isRef _ (by rw [hbsRn]; omega)]
        exact h3read isRef hisr
      · intro rc2 hrc2
        have : rc2 = rc := by
          simpa using hrc2.symm
        subst this
        rw [Heap.read_normRef_ne _ rc2 _ (by rw [hcfRn]; omega),
          Heap.read_normRef_ne _ rc2 _ (by rw [hisRn]; omega),
          Heap.read_normRef_ne _ rc2 _ (by rw [hbsRn]; omega)]
        exact h3read rc2 (hcfr rc2 rfl)
      · intro b hb
        rw [hbs] at hb
        cases hb
        rw [hab,
          Heap.read_normRef_ne _ _ _ (by rw [hcfRn, hbsRn]; omega),
          Heap.read_normRef_ne _ _ _ hneIB]
        exact Heap.read_normRef_self _ _ bs0 h3bsR
      · intro i hi
        rw [his] at hi
        cases hi
        rw [hai,
          Heap.read_normRef_ne _ _ _ (by rw [hcfRn, hisRn]; omega)]
        refine Heap.read_normRef_self _ _ is0 ?_
        rw [Heap.read_normRef_ne _ _ _ hneIB.symm]
        exact h3isR

/-- Witness for C9 on a concrete two-cell heap. -/
theorem C9_witness :
    heapC9W1.read 0 = heapC9W.read 0 ∧
    heapC9W1.read 1 = heapC9W.read 1 ∧
    (∀ rc, (none : Option Nat) = some rc → heapC9W1.read rc = heapC9W.read rc) ∧
    (∀ b, heapC9W.read 0 = some b →
      heapC9W1.read aC9W.balance_sheet = some (normalizeInit b)) ∧
    (∀ i, heapC9W.read 1 = some i →
      heapC9W1.read aC9W.income_stmt = some (normalizeInit i)) :=
  C9_no_input_mutation heapC9W 0 1 none none heapC9W1 aC9W
    (by decide) (by decide)
    (by intro rc h; exact absurd h (by simp)) (by rfl)
